import Mathlib

/-!
Verification of the monitor-movie-show-releases change-detection pipeline.

The Python source (src/monitor_movie_show_releases.py, src/config.py,
src/tmdb.py) is shallowly embedded below.  JSON-like dynamic values are
modelled by the inductive type JValue; Python dicts are association lists
that keep insertion order, exactly as CPython dicts do.  Python code that
can raise (KeyError / TypeError / a RuntimeError wrapping an HTTP failure)
is modelled with Except String.
-/

/-- A JSON-like value: the payloads returned by the TMDB client, the cached
records read back from disk, and the normalized records built by
MonitorMovieShowReleases are all values of this type.  Objects are ordered
association lists, mirroring CPython dict insertion order. -/
inductive JValue where
  | null : JValue
  | bool (b : Bool) : JValue
  | int (n : Int) : JValue
  | str (s : String) : JValue
  | arr (elems : List JValue) : JValue
  | obj (entries : List (String × JValue)) : JValue

/-- Python dict key lookup on an ordered association list (first match). -/
def jlookup : List (String × JValue) → String → Option JValue
  | [], _ => none
  | (k0, v0) :: rest, k => if k0 = k then some v0 else jlookup rest k

/-- Python dict assignment d[k] = v: replaces the value in place if the key
exists (keeping its position), appends at the end otherwise. -/
def jsetKey : List (String × JValue) → String → JValue → List (String × JValue)
  | [], k, v => [(k, v)]
  | (k0, v0) :: rest, k, v =>
    if k0 = k then (k0, v) :: rest else (k0, v0) :: jsetKey rest k v

/-- Python subscription d[k]: KeyError when the key is missing, TypeError
when the subscripted value is not a dict. -/
def getKeyE (j : JValue) (k : String) : Except String JValue :=
  match j with
  | .obj e =>
    match jlookup e k with
    | some v => Except.ok v
    | none => Except.error ("KeyError: " ++ k)
  | _ => Except.error ("TypeError: value is not subscriptable by " ++ k)

/-- Whether a key is present in an object value. -/
def JValue.hasKeyB (j : JValue) (k : String) : Bool :=
  match j with
  | .obj e => (jlookup e k).isSome
  | _ => false

/-- Whether a value is a JSON array (a Python list). -/
def JValue.isArrB : JValue → Bool
  | .arr _ => true
  | _ => false

/-- Python == as used by dictdiffer on non-container values.  dictdiffer
only reaches this comparison when the two values are not both dicts and not
both lists, so the container/container cases (where Python dict equality
would be order-insensitive) are never consulted; they are mapped to false.
Python's bool/int numeric equality (True == 1) is modelled. -/
def pyEq : JValue → JValue → Bool
  | .int a, .int b => a == b
  | .str a, .str b => a == b
  | .null, .null => true
  | .bool a, .bool b => a == b
  | .bool a, .int b => (if a then (1 : Int) else 0) == b
  | .int a, .bool b => a == (if b then (1 : Int) else 0)
  | _, _ => false

/-- Python truthiness test `not value` on a JSON value. -/
def pyFalsy : JValue → Bool
  | .null => true
  | .bool b => !b
  | .int n => n == 0
  | .str s => s.isEmpty
  | .arr l => l.isEmpty
  | .obj l => l.isEmpty

/-- Python `value.strip() == ""`: every character is whitespace. -/
def stripIsEmptyB (s : String) : Bool :=
  s.toList.all Char.isWhitespace

mutual
/-- Python repr() of a JSON value, used by str() on tuples/lists/dicts.
Escaping of special characters inside string scalars is not modelled; no
claim below inspects these rendered strings. -/
def pyRepr : JValue → String
  | .null => "None"
  | .bool b => if b then "True" else "False"
  | .int n => toString n
  | .str s => "\x27" ++ s ++ "\x27"
  | .arr l => "[" ++ String.intercalate ", " (pyReprList l) ++ "]"
  | .obj l => "\x7b" ++ String.intercalate ", " (pyReprEntries l) ++ "\x7d"

def pyReprList : List JValue → List String
  | [] => []
  | v :: rest => pyRepr v :: pyReprList rest

def pyReprEntries : List (String × JValue) → List String
  | [] => []
  | (k, v) :: rest => ("\x27" ++ k ++ "\x27: " ++ pyRepr v) :: pyReprEntries rest
end

/-- Python str() of a JSON value as interpolated by f-strings. -/
def pyStr : JValue → String
  | .null => "None"
  | .bool b => if b then "True" else "False"
  | .int n => toString n
  | .str s => s
  | .arr l => pyRepr (.arr l)
  | .obj l => pyRepr (.obj l)

/-- 4*level spaces of indentation, as produced by json.dumps(indent=4). -/
def jsonIndent (level : Nat) : String :=
  String.mk (List.replicate (4 * level) ' ')

mutual
/-- The lines of json.dumps(value, indent=4), the serialization diffed by
_format_unified_dict_diff.  json.dumps escaping of special characters
inside string scalars is not modelled; no claim below inspects this text. -/
def jsonDumpsLines : JValue → Nat → List String
  | .null, _ => ["null"]
  | .bool b, _ => [if b then "true" else "false"]
  | .int n, _ => [toString n]
  | .str s, _ => ["\"" ++ s ++ "\""]
  | .arr [], _ => ["[]"]
  | .arr (x :: xs), level =>
    "[" :: commaJoinLines (jsonDumpsElems (x :: xs) (level + 1)) ++ [jsonIndent level ++ "]"]
  | .obj [], _ => ["\x7b\x7d"]
  | .obj (e :: es), level =>
    "\x7b" :: commaJoinLines (jsonDumpsEntries (e :: es) (level + 1)) ++ [jsonIndent level ++ "\x7d"]

def jsonDumpsElems : List JValue → Nat → List (List String)
  | [], _ => []
  | v :: rest, level =>
    indentBlock (jsonIndent level) (jsonDumpsLines v level) :: jsonDumpsElems rest level

def jsonDumpsEntries : List (String × JValue) → Nat → List (List String)
  | [], _ => []
  | (k, v) :: rest, level =>
    prefixBlock (jsonIndent level ++ "\"" ++ k ++ "\": ") (jsonDumpsLines v level)
      :: jsonDumpsEntries rest level

def indentBlock (ind : String) : List String → List String
  | [] => []
  | l :: ls => (ind ++ l) :: ls.map (fun x => ind ++ x)

def prefixBlock (pre : String) : List String → List String
  | [] => []
  | l :: ls => (pre ++ l) :: ls

def commaJoinLines : List (List String) → List String
  | [] => []
  | [block] => block
  | block :: rest =>
    (match block.reverse with
     | last :: init => init.reverse ++ [last ++ ","]
     | [] => []) ++ commaJoinLines rest
end

/-- One step of the path that dictdiffer records for a change: a dict key
or a list index. -/
inductive PKey where
  | k (s : String) : PKey
  | i (n : Nat) : PKey

/-- One change operation produced by dictdiffer.diff: ('change', path,
(old, new)), ('add', path, items) or ('remove', path, items). -/
inductive DiffOp where
  | change (path : List PKey) (oldv newv : JValue) : DiffOp
  | add (path : List PKey) (items : List (PKey × JValue)) : DiffOp
  | remove (path : List PKey) (items : List (PKey × JValue)) : DiffOp

/-- Whether an op is an Added op. -/
def DiffOp.isAddB : DiffOp → Bool
  | .add _ _ => true
  | _ => false

/-- Index enumeration (i, l[i]) starting from a given index, as dictdiffer
builds them for list additions/removals. -/
def enumFromIdx : Nat → List JValue → List (PKey × JValue)
  | _, [] => []
  | n, x :: xs => (PKey.i n, x) :: enumFromIdx (n + 1) xs

mutual
/-- dictdiffer.diff(first, second) with default options.  Dicts: recurse on
the keys present on both sides (in first-dict iteration order), then one
Added op carrying all keys only in second, then one Removed op carrying all
keys only in first.  Lists: recurse positionally up to the common length,
then one Added op for the tail of second (ascending indices) or one Removed
op for the tail of first (descending indices).  Any other combination is a
leaf: a Changed op when the values differ under Python equality. -/
def jdiff : JValue → JValue → List PKey → List DiffOp
  | .obj fo, .obj so, node =>
    let addition := so.filter (fun e => (jlookup fo e.1).isNone)
    let deletion := fo.filter (fun e => (jlookup so e.1).isNone)
    jdiffInter fo so node
      ++ (if addition.isEmpty then []
          else [DiffOp.add node (addition.map (fun e => (PKey.k e.1, e.2)))])
      ++ (if deletion.isEmpty then []
          else [DiffOp.remove node (deletion.map (fun e => (PKey.k e.1, e.2)))])
  | .arr fz, .arr sz, node =>
    let m := min fz.length sz.length
    jdiffArr fz sz 0 node
      ++ (if fz.length < sz.length then [DiffOp.add node (enumFromIdx m (sz.drop m))]
          else [])
      ++ (if sz.length < fz.length then [DiffOp.remove node ((enumFromIdx m (fz.drop m)).reverse)]
          else [])
  | f, s, node => if pyEq f s then [] else [DiffOp.change node f s]

def jdiffInter : List (String × JValue) → List (String × JValue) → List PKey → List DiffOp
  | [], _, _ => []
  | (k, v) :: rest, so, node =>
    (match jlookup so k with
     | some w => jdiff v w (node ++ [PKey.k k])
     | none => []) ++ jdiffInter rest so node

def jdiffArr : List JValue → List JValue → Nat → List PKey → List DiffOp
  | f :: fs, s :: ss, idx, node =>
    jdiff f s (node ++ [PKey.i idx]) ++ jdiffArr fs ss (idx + 1) node
  | _, _, _, _ => []
end

/-- Membership of a key in a key list. -/
def keyMemB : List String → String → Bool
  | [], _ => false
  | k0 :: rest, k => (k0 == k) || keyMemB rest k

/-- No duplicate keys in a dict key list.  CPython dicts cannot have
duplicates; the association-list model can, so well-formedness is stated
explicitly where a theorem needs it. -/
def keyNodupB : List String → Bool
  | [] => true
  | k :: ks => (!keyMemB ks k) && keyNodupB ks

mutual
/-- Well-formedness of a JSON value as the image of a CPython object: every
object node has pairwise distinct keys. -/
def wfB : JValue → Bool
  | .obj fo => keyNodupB (fo.map Prod.fst) && wfEntriesB fo
  | .arr l => wfListB l
  | _ => true

def wfEntriesB : List (String × JValue) → Bool
  | [] => true
  | (_, v) :: rest => wfB v && wfEntriesB rest

def wfListB : List JValue → Bool
  | [] => true
  | v :: rest => wfB v && wfListB rest
end

/-- Rendering of a diff path as str() shows it: a dot-joined string when
every step is a dict key (dictdiffer's dot_notation default), otherwise the
repr of the list of steps. -/
def pathRepr (p : List PKey) : String :=
  if p.all (fun x => match x with | .k _ => true | .i _ => false) then
    "\x27" ++ String.intercalate "." (p.map (fun x => match x with | .k s => s | .i n => toString n)) ++ "\x27"
  else
    "[" ++ String.intercalate ", "
      (p.map (fun x => match x with | .k s => "\x27" ++ s ++ "\x27" | .i n => toString n)) ++ "]"

/-- repr of a (key, value) item inside an add/remove op. -/
def itemRepr (it : PKey × JValue) : String :=
  "(" ++ (match it.1 with | .k s => "\x27" ++ s ++ "\x27" | .i n => toString n)
    ++ ", " ++ pyRepr it.2 ++ ")"

/-- Python str() of one dictdiffer change tuple. -/
def opRepr : DiffOp → String
  | .change p oldv newv =>
    "(\x27change\x27, " ++ pathRepr p ++ ", (" ++ pyRepr oldv ++ ", " ++ pyRepr newv ++ "))"
  | .add p items =>
    "(\x27add\x27, " ++ pathRepr p ++ ", [" ++ String.intercalate ", " (items.map itemRepr) ++ "])"
  | .remove p items =>
    "(\x27remove\x27, " ++ pathRepr p ++ ", [" ++ String.intercalate ", " (items.map itemRepr) ++ "])"

/-- MonitorMovieShowReleases._format_dict_diff: one str(change) line per op. -/
def format_dict_diff (diff : List DiffOp) : String :=
  String.join (diff.map (fun change => opRepr change ++ "\n"))

/-- Stand-in for difflib.unified_diff on the two serialized records: empty
for identical inputs, otherwise the two file headers followed by a hunk
listing old lines with - and new lines with +.  The hunk-grouping and
3-line-context computation of difflib is not modelled; no claim below
inspects this text. -/
def unified_diff_lines (a b : List String) (fromfile tofile : String) : List String :=
  if a == b then []
  else ["--- " ++ fromfile, "+++ " ++ tofile, "@@ @@"]
    ++ a.map (fun l => "-" ++ l) ++ b.map (fun l => "+" ++ l)

/-- MonitorMovieShowReleases._format_unified_dict_diff: unified diff of the
indent-4 JSON serializations, with synthetic filenames built from the id,
joined by newlines with one trailing newline. -/
def format_unified_dict_diff (oldv newv : JValue) (tmdb_id : JValue) : String :=
  String.intercalate "\n"
    (unified_diff_lines (jsonDumpsLines oldv 0) (jsonDumpsLines newv 0)
      (pyStr tmdb_id ++ ".json.old") (pyStr tmdb_id ++ ".json.new")) ++ "\n"

/-- One body line for a release entry: f-string
Release(type, iso_639_1): release_date with a trailing newline. -/
def relLine (release : JValue) : Except String String := do
  let t ← getKeyE release "type"
  let lang ← getKeyE release "iso_639_1"
  let date ← getKeyE release "release_date"
  Except.ok ("Release(" ++ pyStr t ++ ", " ++ pyStr lang ++ "): " ++ pyStr date ++ "\n")

/-- MonitorMovieShowReleases._format_movie_change.  Returns (False, "", "")
when the dictdiffer diff of the two records is empty; otherwise builds the
subject and body from the new record (propagating the KeyError/TypeError a
missing key would raise) and returns (True, subject, body). -/
def format_movie_change (movie_old movie_new : JValue) : Except String (Bool × String × String) :=
  let movie_diff := jdiff movie_old movie_new []
  if movie_diff.isEmpty then Except.ok (false, "", "")
  else do
    let title ← getKeyE movie_new "title"
    let tmdb_id ← getKeyE movie_new "id"
    let subject := "Change in movie \"" ++ pyStr title ++ "\" (" ++ pyStr tmdb_id ++ ")"
    let original_title ← getKeyE movie_new "original_title"
    let status ← getKeyE movie_new "status"
    let releases ← getKeyE movie_new "release_dates"
    let releaseLines ←
      match releases with
      | .arr rs => rs.mapM relLine
      | _ => Except.error "TypeError: release_dates is not iterable"
    let body := "https://www.themoviedb.org/movie/" ++ pyStr tmdb_id ++ "\n\n"
      ++ "Title: " ++ pyStr title ++ "\n"
      ++ "Original Title: " ++ pyStr original_title ++ "\n"
      ++ "Status: " ++ pyStr status ++ "\n\n"
      ++ String.join releaseLines
      ++ "\n------\n\n"
      ++ format_unified_dict_diff movie_old movie_new tmdb_id
      ++ "\n------\n\n"
      ++ format_dict_diff movie_diff
    Except.ok (true, subject, body)

/-- Python f-string {n:02}: the integer zero-padded to width 2. -/
def pad2 (n : Int) : String :=
  if 0 ≤ n ∧ n < 10 then "0" ++ toString n else toString n

/-- The next-episode block of _format_show_change: nothing when the field
is None, otherwise one line whose sub-fields are read with .get defaults
(episode_number/season_number/id default 0, name/air_date default "").  A
non-dict non-None value would raise AttributeError on .get; a non-integer
episode_number would make the {episode:02} format spec raise. -/
def nextEpisodeSection : JValue → Except String String
  | .null => Except.ok ""
  | .obj e =>
    let episode := (jlookup e "episode_number").getD (.int 0)
    let season := (jlookup e "season_number").getD (.int 0)
    let name := (jlookup e "name").getD (.str "")
    let episode_id := (jlookup e "id").getD (.int 0)
    let date := (jlookup e "air_date").getD (.str "")
    match episode with
    | .int ep =>
      Except.ok ("Next to air: " ++ pyStr season ++ "x" ++ pad2 ep ++ " - " ++ pyStr name
        ++ " (" ++ pyStr episode_id ++ ")  --  " ++ pyStr date ++ "\n")
    | _ => Except.error "ValueError: invalid format spec for episode_number"
  | _ => Except.error "AttributeError: next_episode_to_air has no attribute get"

/-- MonitorMovieShowReleases._format_show_change, analogous to the movie
formatter but with the next-episode block instead of release lines. -/
def format_show_change (show_old show_new : JValue) : Except String (Bool × String × String) :=
  let show_diff := jdiff show_old show_new []
  if show_diff.isEmpty then Except.ok (false, "", "")
  else do
    let title ← getKeyE show_new "title"
    let tmdb_id ← getKeyE show_new "id"
    let subject := "Change in show \"" ++ pyStr title ++ "\" (" ++ pyStr tmdb_id ++ ")"
    let original_title ← getKeyE show_new "original_title"
    let status ← getKeyE show_new "status"
    let next_episode ← getKeyE show_new "next_episode_to_air"
    let nextLines ← nextEpisodeSection next_episode
    let body := "https://www.themoviedb.org/tv/" ++ pyStr tmdb_id ++ "\n\n"
      ++ "Title: " ++ pyStr title ++ "\n"
      ++ "Original Title: " ++ pyStr original_title ++ "\n"
      ++ "Status: " ++ pyStr status ++ "\n\n"
      ++ nextLines
      ++ "\n------\n\n"
      ++ format_unified_dict_diff show_old show_new tmdb_id
      ++ "\n------\n\n"
      ++ format_dict_diff show_diff
    Except.ok (true, subject, body)

/-- ReleaseType / MonitorMovieShowReleases._describe_release_type: integer
codes 1..6 map to the enum member names, anything else to "Unknown". -/
def describe_release_type (type_id : Int) : String :=
  if type_id = 1 then "Premiere"
  else if type_id = 2 then "LimitedTheatrical"
  else if type_id = 3 then "Theatrical"
  else if type_id = 4 then "Digital"
  else if type_id = 5 then "Physical"
  else if type_id = 6 then "TV"
  else "Unknown"

/-- _describe_release_type applied to the raw JSON value of a "type" key.
Python bools are int subclasses, so True behaves as code 1 and False as
code 0; any non-integer value is not a ReleaseType member, hence
"Unknown". -/
def describeJValue : JValue → String
  | .int n => describe_release_type n
  | .bool b => describe_release_type (if b then 1 else 0)
  | _ => "Unknown"

/-- The in-place mutation of one release entry inside
_filter_release_dates_by_country: release["type"] is replaced by its
description (KeyError when the entry has no "type" key, TypeError when the
entry is not a dict) and release["iso_639_1"] is set to the country. -/
def normalizeRelease (country : String) (release : JValue) : Except String JValue :=
  match release with
  | .obj e =>
    match jlookup e "type" with
    | none => Except.error "KeyError: type"
    | some t =>
      Except.ok (.obj (jsetKey (jsetKey e "type" (.str (describeJValue t))) "iso_639_1" (.str country)))
  | _ => Except.error "TypeError: release entry is not a dict"

/-- list(filter(lambda r: r["iso_3166_1"] == country, results)): the lambda
is forced on every element, so any element without the key raises KeyError
(and a non-dict element raises TypeError) regardless of the country. -/
def pyFilterCountry (country : String) : List JValue → Except String (List JValue)
  | [] => Except.ok []
  | r :: rest => do
    let v ← getKeyE r "iso_3166_1"
    let tail ← pyFilterCountry country rest
    Except.ok (if pyEq v (.str country) then r :: tail else tail)

/-- A raw movie payload as returned by TMDB.get_movie, restricted to the
keys the program reads.  A field is none when the key is absent from the
payload; a present field carries an arbitrary JSON value.  release_dates
holds the value of the "release_dates" key. -/
structure MoviePayload where
  title : Option JValue
  original_title : Option JValue
  status : Option JValue
  release_dates : Option JValue

/-- Whether one character list starts with another. -/
def listStartsWithB : List Char → List Char → Bool
  | [], _ => true
  | _ :: _, [] => false
  | a :: as, b :: bs => (a == b) && listStartsWithB as bs

/-- Whether a character list occurs contiguously inside another. -/
def listHasSubB (needle : List Char) : List Char → Bool
  | [] => needle.isEmpty
  | hay@(_ :: rest) => listStartsWithB needle hay || listHasSubB needle rest

/-- Python substring membership "results" in s. -/
def strContainsResultsB (s : String) : Bool :=
  listHasSubB "results".toList s.toList

/-- Python list membership "results" in l: some element equals the
string "results". -/
def listContainsResultsB (l : List JValue) : Bool :=
  l.any (fun v => pyEq v (JValue.str "results"))

/-- The part of _filter_release_dates_by_country working on the value of
movie["release_dates"]["results"] (none when the "results" key is absent):
filter the results by country code, return [] when no entry matches, and
otherwise normalize (in place) and return the first matching entry's
"release_dates" list. -/
def filter_release_dates_from_results : Option JValue → String → Except String (List JValue)
  | none, _ => Except.ok []
  | some (.arr rs), country => do
    let country_releases ← pyFilterCountry country rs
    match country_releases with
    | [] => Except.ok []
    | first :: _ => do
      let dates ← getKeyE first "release_dates"
      match dates with
      | .arr ds => ds.mapM (normalizeRelease country)
      | _ => Except.error "TypeError: release_dates of result is not iterable"
  | some _, _ => Except.error "TypeError: results is not iterable"

/-- MonitorMovieShowReleases._filter_release_dates_by_country.  Returns []
when the payload has no "release_dates" key or that value has no "results"
key; otherwise processes the results list.  A present-but-non-dict
release_dates value goes through the Python membership test "results" not
in movie["release_dates"]: a list not containing the string "results" or a
string without "results" as a substring answers True and returns []; a
list containing that string or a string containing that substring lets the
guard pass, after which subscripting the value with "results" raises
TypeError; an int, bool or None value makes the membership test itself
raise TypeError. -/
def filter_release_dates_by_country (movie : MoviePayload) (country : String) :
    Except String (List JValue) :=
  match movie.release_dates with
  | none => Except.ok []
  | some (.obj rde) => filter_release_dates_from_results (jlookup rde "results") country
  | some (.arr l) =>
    if listContainsResultsB l then Except.error "TypeError: list indices must be integers"
    else Except.ok []
  | some (.str s) =>
    if strContainsResultsB s then Except.error "TypeError: string indices must be integers"
    else Except.ok []
  | some _ => Except.error "TypeError: argument of type is not iterable"

/-- The normalized movie record movie_info built by _get_movie_info, before
its rendering as a dict. -/
structure MovieInfo where
  id : Int
  title : JValue
  original_title : JValue
  status : JValue
  release_dates : List JValue

/-- The dict movie_info with its exact key insertion order. -/
def MovieInfo.toJ (m : MovieInfo) : JValue :=
  .obj [("id", .int m.id), ("title", m.title), ("original_title", m.original_title),
    ("status", m.status), ("release_dates", .arr m.release_dates)]

/-- The release-selection chain of _get_movie_info: starting from the
empty list, try "US", then "GB", then "DE", keeping the first non-empty
filter result (so the "US" filter always runs first and a later filter
only runs while the list is still empty). -/
def movie_release_dates (movie : MoviePayload) : Except String (List JValue) := do
  let rd0 : List JValue := []
  let rd1 ← if rd0.isEmpty then filter_release_dates_by_country movie "US" else Except.ok rd0
  let rd2 ← if rd1.isEmpty then filter_release_dates_by_country movie "GB" else Except.ok rd1
  let rd3 ← if rd2.isEmpty then filter_release_dates_by_country movie "DE" else Except.ok rd2
  Except.ok rd3

/-- MonitorMovieShowReleases._get_movie_info on an already fetched payload:
title/status default to "" when absent, original_title falls back to the
just-computed title when absent, and release_dates is the result of the
selection chain. -/
def movie_info_of (movie_id : Int) (movie : MoviePayload) : Except String MovieInfo :=
  (movie_release_dates movie).map (fun rd =>
    let title := movie.title.getD (JValue.str "")
    MovieInfo.mk movie_id title (movie.original_title.getD title)
      (movie.status.getD (JValue.str "")) rd)

/-- A raw show payload as returned by TMDB.get_show, restricted to the keys
the program reads. -/
structure ShowPayload where
  name : Option JValue
  original_name : Option JValue
  status : Option JValue
  next_episode_to_air : Option JValue

/-- The normalized show record show_info built by _get_show_info. -/
structure ShowInfo where
  id : Int
  title : JValue
  original_title : JValue
  status : JValue
  next_episode_to_air : JValue

/-- The dict show_info with its exact key insertion order. -/
def ShowInfo.toJ (s : ShowInfo) : JValue :=
  .obj [("id", .int s.id), ("title", s.title), ("original_title", s.original_title),
    ("status", s.status), ("next_episode_to_air", s.next_episode_to_air)]

/-- MonitorMovieShowReleases._get_show_info on an already fetched payload:
title is the "name" field or "", original_title the "original_name" field
falling back to title when absent, status the "status" field or "", and
next_episode_to_air is show.get("next_episode_to_air", None) - the raw
sub-value copied through unchanged (None when the key is absent). -/
def get_show_info (show_id : Int) (showp : ShowPayload) : ShowInfo :=
  let title := showp.name.getD (JValue.str "")
  ShowInfo.mk show_id title (showp.original_name.getD title)
    (showp.status.getD (JValue.str "")) (showp.next_episode_to_air.getD JValue.null)

/-- Config.get_cached_movie / get_cached_show on a cache miss: the empty
dict. -/
def cache_miss : JValue := .obj []

/-- The control flow of MonitorMovieShowReleases._check_movie: fetch the
payload (TMDB.get_movie raises RuntimeError on an HTTP failure), normalize
it, diff/format against the cached record, and report whether a change was
detected.  Any exception propagates to the caller; the mail sending and
cache writing side effects of a detected change do not influence control
flow and are not modelled. -/
def check_movie (fetch : Int → Except String MoviePayload) (cached : Int → JValue)
    (movie_id : Int) : Except String Bool := do
  let movie ← fetch movie_id
  let info ← movie_info_of movie_id movie
  let (changed, _subject, _body) ← format_movie_change (cached movie_id) info.toJ
  Except.ok changed

/-- The control flow of MonitorMovieShowReleases._check_show, analogous. -/
def check_show (fetch : Int → Except String ShowPayload) (cached : Int → JValue)
    (show_id : Int) : Except String Bool := do
  let showp ← fetch show_id
  let info := get_show_info show_id showp
  let (changed, _subject, _body) ← format_show_change (cached show_id) info.toJ
  Except.ok changed

/-- Observable events of one kind's polling loop: the time.sleep(2)
throttle pause and the start of one item's check. -/
inductive RunEvent where
  | sleep : RunEvent
  | attempt (tmdb_id : Int) : RunEvent
deriving DecidableEq, Repr

/-- The for n, item in enumerate(...) loop of MonitorMovieShowReleases.run
for one kind: before each item with n % 10 == 0 a throttle pause happens,
then the item is checked; an exception from the check aborts the loop (and
with it the whole cycle), which is recorded as the second component. -/
def run_kind_loop (check : Int → Except String Bool) : List Int → Nat → List RunEvent × Option String
  | [], _ => ([], none)
  | tmdb_id :: rest, n =>
    let pre := if n % 10 == 0 then [RunEvent.sleep] else []
    match check tmdb_id with
    | .error e => (pre ++ [RunEvent.attempt tmdb_id], some e)
    | .ok _ =>
      let r := run_kind_loop check rest (n + 1)
      (pre ++ [RunEvent.attempt tmdb_id] ++ r.1, r.2)

/-- The movies loop of run (executed when movies are not skipped),
enumerating from 0. -/
def run_movies (fetch : Int → Except String MoviePayload) (cached : Int → JValue)
    (ids : List Int) : List RunEvent × Option String :=
  run_kind_loop (check_movie fetch cached) ids 0

/-- The shows loop of run (executed when shows are not skipped),
enumerating from 0 again: the throttle counter is per kind. -/
def run_shows (fetch : Int → Except String ShowPayload) (cached : Int → JValue)
    (ids : List Int) : List RunEvent × Option String :=
  run_kind_loop (check_show fetch cached) ids 0

/-- The item ids whose check was started, in order, extracted from a loop
trace. -/
def attemptsOf (events : List RunEvent) : List Int :=
  events.filterMap (fun e => match e with | .attempt i => some i | .sleep => none)

/-- Config._get_config_key: the default when the key is absent, when the
value is None or falsy, or when the value is a string that strips to
empty; the stored value otherwise. -/
def get_config_key (config : List (String × JValue)) (key : String) (dflt : JValue) : JValue :=
  match jlookup config key with
  | none => dflt
  | some value =>
    if pyFalsy value then dflt
    else
      match value with
      | .str s => if stripIsEmptyB s then dflt else value
      | _ => value

/-- The program configuration dict built by Config.get_program_config,
with the nested email section flattened into fields. -/
structure ProgramConfig where
  tmdb : JValue
  email_host : JValue
  email_port : JValue
  email_from : JValue
  email_to : JValue
  movies : JValue
  shows : JValue

/-- The hard-coded defaults of get_program_config. -/
def defaultProgramConfig : ProgramConfig :=
  ProgramConfig.mk JValue.null (JValue.str "localhost") (JValue.int 25)
    (JValue.str "monitor_movie_show_releases <monitor_movie_show_releases@localhost>")
    (JValue.arr []) (JValue.arr []) (JValue.arr [])

/-- The final isinstance(config["email"]["to"], str) wrap of
get_program_config: a string recipient becomes a one-element list; any
other value is left as it is. -/
def wrapEmailTo (c : ProgramConfig) : ProgramConfig :=
  match c.email_to with
  | .str s => { c with email_to := JValue.arr [JValue.str s] }
  | _ => c

/-- Config.get_program_config on a loaded configuration file (none models
a missing file).  The top-level tmdb/movies/shows keys and the email
section keys are merged over the defaults with _get_config_key; a present
email section that is not a dict would make the Python membership tests
raise TypeError (for a string value Python would do substring tests
instead; that corner is modelled as the same error). -/
def get_program_config (saved : Option (List (String × JValue))) : Except String ProgramConfig :=
  match saved with
  | none => Except.ok defaultProgramConfig
  | some saved_config =>
    let c0 := defaultProgramConfig
    let c1 := { c0 with
      tmdb := get_config_key saved_config "tmdb" c0.tmdb,
      movies := get_config_key saved_config "movies" c0.movies,
      shows := get_config_key saved_config "shows" c0.shows }
    match jlookup saved_config "email" with
    | none => Except.ok (wrapEmailTo c1)
    | some (.obj em) =>
      let c2 := { c1 with
        email_host := get_config_key em "host" c1.email_host,
        email_port := get_config_key em "port" c1.email_port,
        email_from := get_config_key em "from" c1.email_from,
        email_to := get_config_key em "to" c1.email_to }
      Except.ok (wrapEmailTo c2)
    | some _ => Except.error "TypeError: email section is not a dict"

/-- Whether an Except result is a success. -/
def isOkE {α : Type} : Except String α → Bool
  | .ok _ => true
  | .error _ => false

/-- A normalized release entry as rendered in the email body: a dict with
"type", "iso_639_1" and "release_date" keys (the shape _get_movie_info
produces from complete TMDB data and the body rendering reads back). -/
def isRelEntryRecordB : JValue → Bool
  | .obj e => (jlookup e "type").isSome && (jlookup e "iso_639_1").isSome
      && (jlookup e "release_date").isSome
  | _ => false

/-- A normalized movie record: the five keys _get_movie_info always sets,
with release_dates a list of normalized release entries. -/
def isMovieRecordB : JValue → Bool
  | .obj e => (jlookup e "id").isSome && (jlookup e "title").isSome
      && (jlookup e "original_title").isSome && (jlookup e "status").isSome
      && (match jlookup e "release_dates" with
          | some (.arr rs) => rs.all isRelEntryRecordB
          | _ => false)
  | _ => false

/-- A well-formed next_episode_to_air value of a normalized show record:
None or a dict whose episode_number, if present, is an integer (what the
{episode:02} format spec requires). -/
def nextEpisodeWfB : Option JValue → Bool
  | some .null => true
  | some (.obj ne) =>
    (match jlookup ne "episode_number" with
     | none => true
     | some (.int _) => true
     | some _ => false)
  | _ => false

/-- A normalized show record: the five keys _get_show_info always sets,
with a well-formed next_episode_to_air value. -/
def isShowRecordB : JValue → Bool
  | .obj e => (jlookup e "id").isSome && (jlookup e "title").isSome
      && (jlookup e "original_title").isSome && (jlookup e "status").isSome
      && nextEpisodeWfB (jlookup e "next_episode_to_air")
  | _ => false

/-- A raw release entry that _filter_release_dates_by_country can process
without raising: a dict carrying a "type" key. -/
def rawReleaseWfB : JValue → Bool
  | .obj e => (jlookup e "type").isSome
  | _ => false

/-- A release-results country entry the filter can process without
raising: a dict with an "iso_3166_1" key and a "release_dates" list of
processable raw entries. -/
def resultEntryWfB : JValue → Bool
  | .obj e => (jlookup e "iso_3166_1").isSome
      && (match jlookup e "release_dates" with
          | some (.arr ds) => ds.all rawReleaseWfB
          | _ => false)
  | _ => false

/-- Well-formedness of the value of the "results" key: absent is fine,
and a present list must consist of processable entries. -/
def resultsWfB : Option JValue → Bool
  | none => true
  | some (.arr rs) => rs.all resultEntryWfB
  | some _ => false

/-- A movie payload whose release-results entries (when the nested
structure is present at all) all carry their mandatory sub-fields, and
whose release_dates value, when it is a list or a string, does not slip
past the "results" membership guard (a list containing the string
"results" or a string with "results" as a substring would raise a
TypeError); the top-level structure itself may be missing. -/
def moviePayloadEntriesWfB (p : MoviePayload) : Bool :=
  match p.release_dates with
  | none => true
  | some (.obj rde) => resultsWfB (jlookup rde "results")
  | some (.arr l) => !listContainsResultsB l
  | some (.str s) => !strContainsResultsB s
  | some _ => false

/-- The trace one kind's loop produces when no check raises: a throttle
pause before every item whose 0-based index is divisible by 10, then the
item's check. -/
def expTrace : List Int → Nat → List RunEvent
  | [], _ => []
  | i :: rest, n =>
    (if n % 10 == 0 then [RunEvent.sleep] else []) ++ [RunEvent.attempt i] ++ expTrace rest (n + 1)

/-- A movie payload with no keys at all. -/
def fixEmptyMovie : MoviePayload := MoviePayload.mk none none none none

/-- A fetch function that fails with a transport error on id 1 and
succeeds on every other id. -/
def fixFetchFailOn1 : Int → Except String MoviePayload :=
  fun i => if i = 1 then Except.error "Failed to get movie: HTTPError" else Except.ok fixEmptyMovie

/-- A fetch function that always succeeds. -/
def fixFetchOk : Int → Except String MoviePayload := fun _ => Except.ok fixEmptyMovie

/-- A cache in which every entry is a miss. -/
def fixCacheMissAll : Int → JValue := fun _ => cache_miss

/-- The GB release list of fixMovieGB after normalization. -/
def fixGBList : List JValue :=
  [.obj [("type", .str "Digital"), ("release_date", .str "2024-05-01"), ("iso_639_1", .str "GB")]]

/-- The DE release list of fixMovieGB after normalization. -/
def fixDEList : List JValue :=
  [.obj [("type", .str "Physical"), ("release_date", .str "2024-06-01"), ("iso_639_1", .str "DE")]]

/-- A movie payload with an empty US release list and non-empty GB and DE
release lists. -/
def fixMovieGB : MoviePayload :=
  MoviePayload.mk (some (.str "M")) none (some (.str "Released"))
    (some (.obj [("results", .arr
      [.obj [("iso_3166_1", .str "US"), ("release_dates", .arr [])],
       .obj [("iso_3166_1", .str "GB"), ("release_dates", .arr
         [.obj [("type", .int 4), ("release_date", .str "2024-05-01")]])],
       .obj [("iso_3166_1", .str "DE"), ("release_dates", .arr
         [.obj [("type", .int 5), ("release_date", .str "2024-06-01")]])]])]))

/-- A movie payload whose title is present and whose original_title is
present but empty. -/
def fixMovieEmptyOT : MoviePayload :=
  MoviePayload.mk (some (.str "A")) (some (.str "")) none none

/-- A movie payload whose only US release entry has no "type" key. -/
def fixMovieNoType : MoviePayload :=
  MoviePayload.mk none none none
    (some (.obj [("results", .arr [.obj [("iso_3166_1", .str "US"),
      ("release_dates", .arr [.obj [("release_date", .str "2024-01-01")]])]])]))

/-- A show payload whose next_episode_to_air is present but an empty
dict. -/
def fixShowEmptyNext : ShowPayload :=
  ShowPayload.mk (some (.str "S")) none none (some (.obj []))

/-- The entries of a concrete normalized movie record. -/
def fixMovieRecordEntries : List (String × JValue) :=
  [("id", .int 1), ("title", .str "A"), ("original_title", .str "A"),
   ("status", .str "Released"), ("release_dates", .arr
     [.obj [("type", .str "Digital"), ("iso_639_1", .str "US"), ("release_date", .str "2024-05-01")]])]

/-- The entries of a concrete normalized show record. -/
def fixShowRecordEntries : List (String × JValue) :=
  [("id", .int 2), ("title", .str "B"), ("original_title", .str "B"),
   ("status", .str "Returning Series"), ("next_episode_to_air", .null)]

/-- A saved configuration file whose email.to is the number 42. -/
def fixSavedConfigIntTo : List (String × JValue) := [("email", .obj [("to", .int 42)])]

/-- C7: release type codes 1-6 map to Premiere, LimitedTheatrical,
Theatrical, Digital, Physical and TV respectively; every other integer
code maps to "Unknown" (the function is total, so no error is possible);
in particular 6 maps to "TV" and 99 to "Unknown". -/
theorem c7_release_type_mapping :
    (describe_release_type 1 = "Premiere" ∧ describe_release_type 2 = "LimitedTheatrical" ∧
     describe_release_type 3 = "Theatrical" ∧ describe_release_type 4 = "Digital" ∧
     describe_release_type 5 = "Physical" ∧ describe_release_type 6 = "TV") ∧
    (∀ t : Int, t < 1 ∨ 6 < t → describe_release_type t = "Unknown") ∧
    describe_release_type 99 = "Unknown" := by
  refine ⟨⟨rfl, rfl, rfl, rfl, rfl, rfl⟩, ?_, rfl⟩
  intro t ht
  unfold describe_release_type
  rw [if_neg (by omega : ¬ t = 1), if_neg (by omega : ¬ t = 2), if_neg (by omega : ¬ t = 3),
    if_neg (by omega : ¬ t = 4), if_neg (by omega : ¬ t = 5), if_neg (by omega : ¬ t = 6)]

/-- C7 witness: the out-of-range clause applied at the concrete code 99. -/
theorem c7_release_type_mapping_witness : describe_release_type 99 = "Unknown" :=
  c7_release_type_mapping.2.1 99 (Or.inr (by decide))

/-- C6 counterexample: for a payload whose original-title field is present
but empty, normalization keeps the empty string instead of falling back to
the title "A", so the claimed fallback on an empty (rather than absent)
field does not happen. -/
theorem c6_counterexample :
    movie_info_of 5 fixMovieEmptyOT =
      Except.ok (MovieInfo.mk 5 (JValue.str "A") (JValue.str "") (JValue.str "") []) ∧
    JValue.str "" ≠ JValue.str "A" := by
  refine ⟨rfl, ?_⟩
  intro h
  injection h with h'
  exact absurd h' (by decide)

/-- C6 amended: original_title equals the payload's original-title (resp.
original-name) field whenever that field is present, even when it is
empty, and falls back to the normalized title only when the field is
absent. -/
theorem c6_amended_original_title_fallback :
    (∀ (movie_id : Int) (p : MoviePayload) (info : MovieInfo),
      movie_info_of movie_id p = Except.ok info →
      info.original_title = p.original_title.getD (p.title.getD (JValue.str ""))) ∧
    (∀ (show_id : Int) (p : ShowPayload),
      (get_show_info show_id p).original_title = p.original_name.getD (p.name.getD (JValue.str ""))) := by
  constructor
  · intro movie_id p info h
    cases hrd : movie_release_dates p with
    | error e => simp [movie_info_of, hrd, Except.map] at h
    | ok rd =>
      simp only [movie_info_of, hrd, Except.map] at h
      cases h
      rfl
  · intro show_id p
    rfl

/-- C6 amended witness: the movie clause applied at the concrete payload
with an empty original-title field. -/
theorem c6_amended_original_title_fallback_witness :
    (MovieInfo.mk 5 (JValue.str "A") (JValue.str "") (JValue.str "") []).original_title =
      fixMovieEmptyOT.original_title.getD (fixMovieEmptyOT.title.getD (JValue.str "")) :=
  c6_amended_original_title_fallback.1 5 fixMovieEmptyOT
    (MovieInfo.mk 5 (JValue.str "A") (JValue.str "") (JValue.str "") []) rfl

/-- C9 counterexample: for a show payload whose next-episode field is
present but an empty dict, the normalized record's sub-record is that
empty dict: it does not contain an episode_number key (nor any defaulted
sub-field), contradicting the claim that missing sub-fields are never
absent from the normalized sub-record. -/
theorem c9_counterexample :
    (get_show_info 7 fixShowEmptyNext).next_episode_to_air = JValue.obj [] ∧
    ((get_show_info 7 fixShowEmptyNext).next_episode_to_air).hasKeyB "episode_number" = false :=
  ⟨rfl, rfl⟩

/-- C9 amended: the normalized record copies the next-episode sub-record
through unchanged (absent sub-fields stay absent; an absent field becomes
None); the defaults 0 and "" for missing sub-fields are substituted only
when the Change Formatter renders the next-to-air line. -/
theorem c9_amended_next_episode_copy :
    (∀ (show_id : Int) (p : ShowPayload),
      (get_show_info show_id p).next_episode_to_air = p.next_episode_to_air.getD JValue.null) ∧
    (∀ (e : List (String × JValue)) (ep : Int),
      (jlookup e "episode_number").getD (JValue.int 0) = JValue.int ep →
      nextEpisodeSection (JValue.obj e) = Except.ok ("Next to air: "
        ++ pyStr ((jlookup e "season_number").getD (JValue.int 0)) ++ "x" ++ pad2 ep ++ " - "
        ++ pyStr ((jlookup e "name").getD (JValue.str "")) ++ " ("
        ++ pyStr ((jlookup e "id").getD (JValue.int 0)) ++ ")  --  "
        ++ pyStr ((jlookup e "air_date").getD (JValue.str "")) ++ "\n")) := by
  constructor
  · intro show_id p
    rfl
  · intro e ep h
    simp only [nextEpisodeSection, h]

/-- C9 amended witness: both clauses applied at the concrete payload with
an empty next-episode dict. -/
theorem c9_amended_next_episode_copy_witness :
    (get_show_info 7 fixShowEmptyNext).next_episode_to_air =
      fixShowEmptyNext.next_episode_to_air.getD JValue.null ∧
    nextEpisodeSection (JValue.obj []) = Except.ok ("Next to air: "
      ++ pyStr ((jlookup [] "season_number").getD (JValue.int 0)) ++ "x" ++ pad2 0 ++ " - "
      ++ pyStr ((jlookup [] "name").getD (JValue.str "")) ++ " ("
      ++ pyStr ((jlookup [] "id").getD (JValue.int 0)) ++ ")  --  "
      ++ pyStr ((jlookup [] "air_date").getD (JValue.str "")) ++ "\n") :=
  ⟨c9_amended_next_episode_copy.1 7 fixShowEmptyNext,
   c9_amended_next_episode_copy.2 [] 0 rfl⟩

/-- C10 counterexample: a configuration file giving email.to as the number
42 loads successfully with email_to = 42, which is not a list, so the
loaded configuration does not always expose the recipient field as a
list. -/
theorem c10_counterexample :
    get_program_config (some fixSavedConfigIntTo) =
      Except.ok { defaultProgramConfig with email_to := JValue.int 42 } ∧
    (JValue.int 42).isArrB = false :=
  ⟨rfl, rfl⟩

/-- C10 amended: the recipient field is a list whenever the file gives it
as a string, as a list, or not at all: a non-empty string that does not
strip to empty is wrapped into a one-element list; an absent, None, empty
or whitespace-only value defaults to the empty list; a non-empty list is
kept.  Values of any other type (for example a number) pass through
unchanged, so the field is not a list for arbitrary files. -/
theorem c10_amended_email_to :
    (∀ (sc em : List (String × JValue)) (c : ProgramConfig),
      jlookup sc "email" = some (JValue.obj em) →
      get_program_config (some sc) = Except.ok c →
      (jlookup em "to" = none → c.email_to = JValue.arr []) ∧
      (∀ s : String, jlookup em "to" = some (JValue.str s) → stripIsEmptyB s = false →
        c.email_to = JValue.arr [JValue.str s]) ∧
      (∀ s : String, jlookup em "to" = some (JValue.str s) → stripIsEmptyB s = true →
        c.email_to = JValue.arr []) ∧
      (∀ l : List JValue, jlookup em "to" = some (JValue.arr l) → l ≠ [] →
        c.email_to = JValue.arr l) ∧
      (jlookup em "to" = some (JValue.arr []) → c.email_to = JValue.arr []) ∧
      (jlookup em "to" = some JValue.null → c.email_to = JValue.arr [])) ∧
    (∀ (sc : List (String × JValue)) (c : ProgramConfig),
      jlookup sc "email" = none →
      get_program_config (some sc) = Except.ok c → c.email_to = JValue.arr []) := by
  constructor
  · intro sc em c hem hc
    simp only [get_program_config, hem] at hc
    cases hc
    refine ⟨?_, ?_, ?_, ?_, ?_, ?_⟩
    · intro hto
      simp [wrapEmailTo, get_config_key, hto, defaultProgramConfig]
    · intro s hto hs
      have hfal : pyFalsy (JValue.str s) = false := by
        simp only [pyFalsy]
        cases he : s.isEmpty
        · rfl
        · exfalso
          rw [String.isEmpty_iff] at he
          subst he
          simp [stripIsEmptyB] at hs
      simp [wrapEmailTo, get_config_key, hto, hfal, hs]
    · intro s hto hs
      by_cases he : pyFalsy (JValue.str s) = true
      · simp [wrapEmailTo, get_config_key, hto, he, defaultProgramConfig]
      · simp only [Bool.not_eq_true] at he
        simp [wrapEmailTo, get_config_key, hto, he, hs, defaultProgramConfig]
    · intro l hto hl
      have hfal : pyFalsy (JValue.arr l) = false := by
        simp [pyFalsy, hl]
      simp only [wrapEmailTo, get_config_key, hto, hfal]
      cases l with
      | nil => exact absurd rfl hl
      | cons x xs => rfl
    · intro hto
      simp [wrapEmailTo, get_config_key, hto, pyFalsy, defaultProgramConfig]
    · intro hto
      simp [wrapEmailTo, get_config_key, hto, pyFalsy, defaultProgramConfig]
  · intro sc c hem hc
    simp only [get_program_config, hem] at hc
    cases hc
    simp [wrapEmailTo, get_config_key, defaultProgramConfig]

/-- C10 amended witness: the wrap clause applied at a file whose email.to
is the string "user@example.org", and the default clause at a file with no
email section. -/
theorem c10_amended_email_to_witness :
    get_program_config (some [("email", JValue.obj [("to", JValue.str "user@example.org")])]) =
      Except.ok { defaultProgramConfig with email_to := JValue.arr [JValue.str "user@example.org"] } ∧
    ({ defaultProgramConfig with email_to := JValue.arr [JValue.str "user@example.org"] }
      : ProgramConfig).email_to = JValue.arr [JValue.str "user@example.org"] ∧
    get_program_config (some []) = Except.ok defaultProgramConfig ∧
    defaultProgramConfig.email_to = JValue.arr [] :=
  ⟨rfl,
   (c10_amended_email_to.1 [("email", JValue.obj [("to", JValue.str "user@example.org")])]
      [("to", JValue.str "user@example.org")]
      { defaultProgramConfig with email_to := JValue.arr [JValue.str "user@example.org"] }
      rfl rfl).2.1 "user@example.org" rfl (by decide),
   rfl,
   c10_amended_email_to.2 [] defaultProgramConfig rfl rfl⟩

/-- The selection chain evaluated from the three filter results: first
non-empty in the order US, GB, DE, and the last (possibly empty) DE result
when US and GB are empty. -/
theorem movie_release_dates_select (p : MoviePayload) (us gb de : List JValue)
    (hus : filter_release_dates_by_country p "US" = Except.ok us)
    (hgb : filter_release_dates_by_country p "GB" = Except.ok gb)
    (hde : filter_release_dates_by_country p "DE" = Except.ok de) :
    movie_release_dates p =
      Except.ok (if us.isEmpty then if gb.isEmpty then de else gb else us) := by
  cases us with
  | cons u us' => simp [movie_release_dates, hus, bind, Except.bind]
  | nil =>
    cases gb with
    | cons g gb' => simp [movie_release_dates, hus, hgb, bind, Except.bind]
    | nil => simp [movie_release_dates, hus, hgb, hde, bind, Except.bind]

/-- C2: when all three country filters succeed, normalization selects the
first non-empty list in the fixed order US, GB, DE, and the empty list
when all three are empty; in particular an empty US list and a non-empty
GB list select the GB list. -/
theorem c2_release_priority :
    ∀ (movie_id : Int) (p : MoviePayload) (us gb de : List JValue),
      filter_release_dates_by_country p "US" = Except.ok us →
      filter_release_dates_by_country p "GB" = Except.ok gb →
      filter_release_dates_by_country p "DE" = Except.ok de →
      ∃ info : MovieInfo, movie_info_of movie_id p = Except.ok info ∧
        info.release_dates = (if us.isEmpty then if gb.isEmpty then de else gb else us) ∧
        (us = [] → gb ≠ [] → info.release_dates = gb) := by
  intro movie_id p us gb de hus hgb hde
  have hrd := movie_release_dates_select p us gb de hus hgb hde
  refine ⟨MovieInfo.mk movie_id (p.title.getD (JValue.str ""))
    (p.original_title.getD (p.title.getD (JValue.str ""))) (p.status.getD (JValue.str ""))
    (if us.isEmpty then if gb.isEmpty then de else gb else us), ?_, rfl, ?_⟩
  · simp [movie_info_of, hrd, Except.map]
  · intro h1 h2
    subst h1
    cases gb with
    | nil => exact absurd rfl h2
    | cons g gb' => rfl

/-- C2 witness: the selection applied at a concrete payload with an empty
US list and non-empty GB and DE lists; the chosen list is the GB one. -/
theorem c2_release_priority_witness :
    ∃ info : MovieInfo, movie_info_of 9 fixMovieGB = Except.ok info ∧
      info.release_dates =
        (if ([] : List JValue).isEmpty then if fixGBList.isEmpty then fixDEList else fixGBList
         else []) ∧
      (([] : List JValue) = [] → fixGBList ≠ [] → info.release_dates = fixGBList) :=
  c2_release_priority 9 fixMovieGB [] fixGBList fixDEList rfl rfl rfl

/-- A raw release entry with a "type" key is normalized without error. -/
theorem normalizeRelease_ok (country : String) (d : JValue) (h : rawReleaseWfB d = true) :
    ∃ r, normalizeRelease country d = Except.ok r := by
  cases d with
  | obj e =>
    simp only [rawReleaseWfB] at h
    obtain ⟨t, ht⟩ := Option.isSome_iff_exists.mp h
    exact ⟨.obj (jsetKey (jsetKey e "type" (.str (describeJValue t))) "iso_639_1" (.str country)),
      by simp [normalizeRelease, ht]⟩
  | null => simp [rawReleaseWfB] at h
  | bool b => simp [rawReleaseWfB] at h
  | int n => simp [rawReleaseWfB] at h
  | str s => simp [rawReleaseWfB] at h
  | arr l => simp [rawReleaseWfB] at h

/-- mapM over Except succeeds when every element does. -/
theorem mapM_ok {α β : Type} (f : α → Except String β) :
    ∀ l : List α, (∀ x ∈ l, ∃ y, f x = Except.ok y) → ∃ out, l.mapM f = Except.ok out
  | [], _ => ⟨[], rfl⟩
  | x :: xs, h => by
    obtain ⟨y, hy⟩ := h x (List.mem_cons_self x xs)
    obtain ⟨out, hout⟩ := mapM_ok f xs (fun z hz => h z (List.mem_cons_of_mem x hz))
    exact ⟨y :: out, by rw [List.mapM_cons, hy, hout]; rfl⟩

/-- The country filter succeeds when every results entry has an
"iso_3166_1" key, and only keeps entries of the input list. -/
theorem pyFilterCountry_ok (country : String) :
    ∀ rs : List JValue, (∀ r ∈ rs, ∃ v, getKeyE r "iso_3166_1" = Except.ok v) →
      ∃ out, pyFilterCountry country rs = Except.ok out ∧ ∀ x ∈ out, x ∈ rs
  | [], _ => ⟨[], rfl, by simp⟩
  | r :: rest, h => by
    obtain ⟨v, hv⟩ := h r (List.mem_cons_self r rest)
    obtain ⟨out, hout, hsub⟩ :=
      pyFilterCountry_ok country rest (fun z hz => h z (List.mem_cons_of_mem r hz))
    refine ⟨if pyEq v (.str country) then r :: out else out, ?_, ?_⟩
    · simp [pyFilterCountry, hv, hout, bind, Except.bind, pure, Except.pure]
    · intro x hx
      by_cases hc : pyEq v (.str country) = true
      · rw [if_pos hc] at hx
        rcases List.mem_cons.mp hx with h1 | h2
        · exact h1 ▸ List.mem_cons_self r rest
        · exact List.mem_cons_of_mem r (hsub x h2)
      · rw [if_neg hc] at hx
        exact List.mem_cons_of_mem r (hsub x hx)

/-- The country filter never raises on a payload whose results entries all
carry their mandatory sub-fields. -/
theorem filter_release_dates_ok (p : MoviePayload) (hwf : moviePayloadEntriesWfB p = true)
    (country : String) : ∃ l, filter_release_dates_by_country p country = Except.ok l := by
  cases hrd : p.release_dates with
  | none => exact ⟨[], by simp [filter_release_dates_by_country, hrd]⟩
  | some rd =>
    cases rd with
    | null => simp [moviePayloadEntriesWfB, hrd] at hwf
    | bool b => simp [moviePayloadEntriesWfB, hrd] at hwf
    | int n => simp [moviePayloadEntriesWfB, hrd] at hwf
    | str str0 =>
      have hns : strContainsResultsB str0 = false := by
        simpa [moviePayloadEntriesWfB, hrd] using hwf
      exact ⟨[], by simp [filter_release_dates_by_country, hrd, hns]⟩
    | arr l =>
      have hna : listContainsResultsB l = false := by
        simpa [moviePayloadEntriesWfB, hrd] using hwf
      exact ⟨[], by simp [filter_release_dates_by_country, hrd, hna]⟩
    | obj rde =>
      have hres0 : resultsWfB (jlookup rde "results") = true := by
        simpa [moviePayloadEntriesWfB, hrd] using hwf
      have hgoal : ∃ l, filter_release_dates_from_results (jlookup rde "results") country =
          Except.ok l := by
        cases hres : jlookup rde "results" with
        | none => exact ⟨[], rfl⟩
        | some results =>
          rw [hres] at hres0
          cases results with
          | null => simp [resultsWfB] at hres0
          | bool b => simp [resultsWfB] at hres0
          | int n => simp [resultsWfB] at hres0
          | str str0 => simp [resultsWfB] at hres0
          | obj e => simp [resultsWfB] at hres0
          | arr rs =>
            have hall : ∀ r ∈ rs, resultEntryWfB r = true := by
              simpa [resultsWfB, List.all_eq_true] using hres0
            have hiso : ∀ r ∈ rs, ∃ v, getKeyE r "iso_3166_1" = Except.ok v := by
              intro r hr
              have hwr := hall r hr
              cases r with
              | obj e =>
                simp only [resultEntryWfB, Bool.and_eq_true] at hwr
                obtain ⟨v, hv⟩ := Option.isSome_iff_exists.mp hwr.1
                exact ⟨v, by simp [getKeyE, hv]⟩
              | null => simp [resultEntryWfB] at hwr
              | bool b => simp [resultEntryWfB] at hwr
              | int n => simp [resultEntryWfB] at hwr
              | str str0 => simp [resultEntryWfB] at hwr
              | arr l => simp [resultEntryWfB] at hwr
            obtain ⟨out, hout, hsub⟩ := pyFilterCountry_ok country rs hiso
            cases out with
            | nil =>
              exact ⟨[], by simp [filter_release_dates_from_results, hout, bind, Except.bind]⟩
            | cons first rest0 =>
              have hfw := hall first (hsub first (List.mem_cons_self first rest0))
              cases first with
              | obj e =>
                simp only [resultEntryWfB, Bool.and_eq_true] at hfw
                obtain ⟨hiso1, hdates⟩ := hfw
                cases hdv : jlookup e "release_dates" with
                | none => rw [hdv] at hdates; simp at hdates
                | some dates =>
                  rw [hdv] at hdates
                  cases dates with
                  | null => simp at hdates
                  | bool b => simp at hdates
                  | int n => simp at hdates
                  | str str0 => simp at hdates
                  | obj e2 => simp at hdates
                  | arr ds =>
                    have hraws : ∀ d ∈ ds, rawReleaseWfB d = true := by
                      simpa [List.all_eq_true] using hdates
                    obtain ⟨outs, houts⟩ := mapM_ok (normalizeRelease country) ds
                      (fun d hd => normalizeRelease_ok country d (hraws d hd))
                    refine ⟨outs, ?_⟩
                    simp only [filter_release_dates_from_results, hout, bind, Except.bind,
                      getKeyE, hdv]
                    exact houts
              | null => simp [resultEntryWfB] at hfw
              | bool b => simp [resultEntryWfB] at hfw
              | int n => simp [resultEntryWfB] at hfw
              | str str0 => simp [resultEntryWfB] at hfw
              | arr l => simp [resultEntryWfB] at hfw
      obtain ⟨l, hl⟩ := hgoal
      exact ⟨l, by simp [filter_release_dates_by_country, hrd, hl]⟩

/-- C8 counterexample: a payload whose only US release entry has no "type"
key makes movie normalization raise a KeyError instead of producing a
record, so normalization does not tolerate release entries missing their
own sub-fields. -/
theorem c8_counterexample :
    movie_info_of 3 fixMovieNoType = Except.error "KeyError: type" := rfl

/-- C8 amended: movie normalization never raises when the release-results
entries that are present carry their mandatory sub-fields (an entirely
missing release-dates structure, missing results list, or missing
title/original-title/status fields are all defaulted, as the universally
quantified title/status fields of the payload show); but a results entry
without "iso_3166_1", a matched country entry without "release_dates", or
a release entry without "type" raises a KeyError.  Show normalization
(get_show_info) is a total function and never raises. -/
theorem c8_amended_no_raise :
    ∀ (movie_id : Int) (p : MoviePayload), moviePayloadEntriesWfB p = true →
      ∃ info, movie_info_of movie_id p = Except.ok info := by
  intro movie_id p h
  obtain ⟨us, hus⟩ := filter_release_dates_ok p h "US"
  obtain ⟨gb, hgb⟩ := filter_release_dates_ok p h "GB"
  obtain ⟨de, hde⟩ := filter_release_dates_ok p h "DE"
  have hrd := movie_release_dates_select p us gb de hus hgb hde
  refine ⟨MovieInfo.mk movie_id (p.title.getD (JValue.str ""))
    (p.original_title.getD (p.title.getD (JValue.str ""))) (p.status.getD (JValue.str ""))
    (if us.isEmpty then if gb.isEmpty then de else gb else us), ?_⟩
  simp [movie_info_of, hrd, Except.map]

/-- C8 amended witness: normalization succeeds on the all-fields-missing
payload. -/
theorem c8_amended_no_raise_witness :
    moviePayloadEntriesWfB fixEmptyMovie = true ∧
    (∃ info, movie_info_of 1 fixEmptyMovie = Except.ok info) :=
  ⟨by decide, c8_amended_no_raise 1 fixEmptyMovie (by decide)⟩

/-- A successful Except value is an ok. -/
theorem isOkE_exists {α : Type} {x : Except String α} (h : isOkE x = true) :
    ∃ b, x = Except.ok b := by
  cases x with
  | ok b => exact ⟨b, rfl⟩
  | error e => simp [isOkE] at h

/-- attemptsOf distributes over append. -/
theorem attemptsOf_append (a b : List RunEvent) :
    attemptsOf (a ++ b) = attemptsOf a ++ attemptsOf b := by
  simp [attemptsOf]

/-- A throttle-pause prefix contributes no attempts. -/
theorem attemptsOf_sleepPre (p : Prop) [Decidable p] :
    attemptsOf (if p then [RunEvent.sleep] else []) = [] := by
  split <;> simp [attemptsOf]

/-- A single attempt event contributes its id. -/
theorem attemptsOf_single (i : Int) : attemptsOf [RunEvent.attempt i] = [i] := rfl

/-- When every check before a failing item succeeds, the loop checks
exactly the items up to and including the failing one and stops with its
error: nothing after the failing item is attempted. -/
theorem run_kind_loop_abort (check : Int → Except String Bool) (e : String) :
    ∀ (pre : List Int) (i : Int) (rest : List Int) (n : Nat),
      (∀ j ∈ pre, isOkE (check j) = true) → check i = Except.error e →
      attemptsOf (run_kind_loop check (pre ++ i :: rest) n).1 = pre ++ [i] ∧
      (run_kind_loop check (pre ++ i :: rest) n).2 = some e
  | [], i, rest, n, _, hi => by
    constructor
    · simp [run_kind_loop, hi, attemptsOf_append, attemptsOf_sleepPre, attemptsOf_single]
    · simp [run_kind_loop, hi]
  | j :: pre', i, rest, n, hpre, hi => by
    obtain ⟨b, hb⟩ := isOkE_exists (hpre j (List.mem_cons_self j pre'))
    have ih := run_kind_loop_abort check e pre' i rest (n + 1)
      (fun z hz => hpre z (List.mem_cons_of_mem j hz)) hi
    constructor
    · simp only [List.cons_append, run_kind_loop, hb, attemptsOf_append, attemptsOf_sleepPre,
        attemptsOf_single, ih.1]
      simp [ih.1]
    · simp only [List.cons_append, run_kind_loop, hb]
      exact ih.2

/-- C1 counterexample: with a fetch that fails on movie 1 (and succeeds on
anything else) and configured ids [1, 2], the cycle stops at item 1 with
the transport error; item 2 is never attempted, so a per-item failure does
abort the whole cycle instead of being skipped. -/
theorem c1_counterexample :
    (run_movies fixFetchFailOn1 fixCacheMissAll [1, 2]).2 = some "Failed to get movie: HTTPError" ∧
    (run_movies fixFetchFailOn1 fixCacheMissAll [1, 2]).1 = [RunEvent.sleep, RunEvent.attempt 1] ∧
    RunEvent.attempt 2 ∉ (run_movies fixFetchFailOn1 fixCacheMissAll [1, 2]).1 :=
  ⟨rfl, rfl, by decide⟩

/-- C1 amended: a Metadata Client failure while processing one configured
movie propagates out of the per-item check and aborts the poll cycle: when
every item before the failing one succeeds, exactly the items up to and
including the failing one are attempted, the failing item's error is the
loop's outcome, and no later configured item is processed. -/
theorem c1_amended_abort (fetch : Int → Except String MoviePayload) (cached : Int → JValue)
    (pre : List Int) (i : Int) (rest : List Int) (e : String)
    (hpre : ∀ j ∈ pre, isOkE (check_movie fetch cached j) = true)
    (hi : check_movie fetch cached i = Except.error e) :
    attemptsOf (run_movies fetch cached (pre ++ i :: rest)).1 = pre ++ [i] ∧
    (run_movies fetch cached (pre ++ i :: rest)).2 = some e :=
  run_kind_loop_abort (check_movie fetch cached) e pre i rest 0 hpre hi

/-- C1 amended witness: the abort applied with one succeeding item before
the failing one and one configured item after it. -/
theorem c1_amended_abort_witness :
    (∀ j ∈ [(2 : Int)], isOkE (check_movie fixFetchFailOn1 fixCacheMissAll j) = true) ∧
    attemptsOf (run_movies fixFetchFailOn1 fixCacheMissAll ([2] ++ 1 :: [3])).1 = [2] ++ [1] ∧
    (run_movies fixFetchFailOn1 fixCacheMissAll ([2] ++ 1 :: [3])).2 =
      some "Failed to get movie: HTTPError" := by
  have hpre : ∀ j ∈ [(2 : Int)], isOkE (check_movie fixFetchFailOn1 fixCacheMissAll j) = true := by
    decide
  have h := c1_amended_abort fixFetchFailOn1 fixCacheMissAll [2] 1 [3]
    "Failed to get movie: HTTPError" hpre rfl
  exact ⟨hpre, h.1, h.2⟩

/-- When no check raises, the loop runs to completion and its trace is the
expected interleaving of throttle pauses and checks. -/
theorem run_kind_loop_all_ok (check : Int → Except String Bool) :
    ∀ (ids : List Int) (n : Nat), (∀ i ∈ ids, isOkE (check i) = true) →
      run_kind_loop check ids n = (expTrace ids n, none)
  | [], _, _ => rfl
  | i :: rest, n, h => by
    obtain ⟨b, hb⟩ := isOkE_exists (h i (List.mem_cons_self i rest))
    have ih := run_kind_loop_all_ok check rest (n + 1)
      (fun z hz => h z (List.mem_cons_of_mem i hz))
    simp [run_kind_loop, hb, ih, expTrace]

/-- C5: with 11 configured movie ids none of which fails, the loop trace
is exactly one throttle pause, the checks of the first ten items with no
pause between them, a second pause, and the check of the eleventh item: a
pause happens before every item whose 0-based index is divisible by 10, so
exactly one pause occurs before the first item and the counter yields the
next pause after ten processed items. -/
theorem c5_throttle_eleven (fetch : Int → Except String MoviePayload) (cached : Int → JValue)
    (ids : List Int) (hlen : ids.length = 11)
    (hok : ∀ i ∈ ids, isOkE (check_movie fetch cached i) = true) :
    (run_movies fetch cached ids).1 =
      [RunEvent.sleep] ++ (ids.take 10).map RunEvent.attempt
        ++ [RunEvent.sleep] ++ (ids.drop 10).map RunEvent.attempt ∧
    (run_movies fetch cached ids).2 = none := by
  have h : run_movies fetch cached ids = (expTrace ids 0, none) :=
    run_kind_loop_all_ok (check_movie fetch cached) ids 0 hok
  rcases ids with _ | ⟨a0, _ | ⟨a1, _ | ⟨a2, _ | ⟨a3, _ | ⟨a4, _ | ⟨a5, _ | ⟨a6, _ | ⟨a7,
    _ | ⟨a8, _ | ⟨a9, _ | ⟨a10, tl⟩⟩⟩⟩⟩⟩⟩⟩⟩⟩⟩ <;> simp at hlen
  subst hlen
  rw [h]
  constructor
  · simp [expTrace]
  · rfl

/-- C5 witness: the trace equation applied at eleven concrete movie ids
with a fetch that always succeeds. -/
theorem c5_throttle_eleven_witness :
    (∀ i ∈ [(1 : Int), 2, 3, 4, 5, 6, 7, 8, 9, 10, 11],
      isOkE (check_movie fixFetchOk fixCacheMissAll i) = true) ∧
    (run_movies fixFetchOk fixCacheMissAll [1, 2, 3, 4, 5, 6, 7, 8, 9, 10, 11]).1 =
      [RunEvent.sleep] ++ (([(1 : Int), 2, 3, 4, 5, 6, 7, 8, 9, 10, 11].take 10).map RunEvent.attempt)
        ++ [RunEvent.sleep] ++ (([(1 : Int), 2, 3, 4, 5, 6, 7, 8, 9, 10, 11].drop 10).map RunEvent.attempt) ∧
    (run_movies fixFetchOk fixCacheMissAll [1, 2, 3, 4, 5, 6, 7, 8, 9, 10, 11]).2 = none := by
  have hok : ∀ i ∈ [(1 : Int), 2, 3, 4, 5, 6, 7, 8, 9, 10, 11],
      isOkE (check_movie fixFetchOk fixCacheMissAll i) = true := by decide
  have h := c5_throttle_eleven fixFetchOk fixCacheMissAll
    [1, 2, 3, 4, 5, 6, 7, 8, 9, 10, 11] rfl hok
  exact ⟨hok, h.1, h.2⟩

/-- A member of a key list satisfies keyMemB. -/
theorem keyMemB_of_mem : ∀ (ks : List String) (k : String), k ∈ ks → keyMemB ks k = true
  | k0 :: rest, k, h => by
    rcases List.mem_cons.mp h with h1 | h2
    · simp [keyMemB, h1]
    · simp [keyMemB, keyMemB_of_mem rest k h2]

/-- A key that appears in an association list looks up to something. -/
theorem jlookup_isSome_of_mem :
    ∀ (fo : List (String × JValue)) (k : String) (v : JValue),
      (k, v) ∈ fo → (jlookup fo k).isSome = true
  | (k0, v0) :: rest, k, v, hm => by
    by_cases hk : k0 = k
    · simp [jlookup, hk]
    · rcases List.mem_cons.mp hm with h1 | h2
      · exact absurd (congrArg Prod.fst h1).symm hk
      · simpa [jlookup, hk] using jlookup_isSome_of_mem rest k v h2

/-- With pairwise distinct keys, a member pair is exactly what its key
looks up to. -/
theorem jlookup_of_mem_nodup :
    ∀ (fo : List (String × JValue)) (k : String) (v : JValue),
      keyNodupB (fo.map Prod.fst) = true → (k, v) ∈ fo → jlookup fo k = some v
  | (k0, v0) :: rest, k, v, hnd, hm => by
    have hnd' : (!keyMemB (rest.map Prod.fst) k0 && keyNodupB (rest.map Prod.fst)) = true := by
      simpa [keyNodupB] using hnd
    rcases List.mem_cons.mp hm with h1 | h2
    · have hk : k = k0 := congrArg Prod.fst h1
      have hv : v = v0 := congrArg Prod.snd h1
      subst hk
      subst hv
      simp [jlookup]
    · have hk : k0 ≠ k := by
        intro he
        subst he
        have hmem : k0 ∈ rest.map Prod.fst := List.mem_map.mpr ⟨(k0, v), h2, rfl⟩
        have hc := ((Bool.and_eq_true _ _).mp hnd').1
        rw [keyMemB_of_mem (rest.map Prod.fst) k0 hmem] at hc
        simp at hc
      simpa [jlookup, hk] using
        jlookup_of_mem_nodup rest k v ((Bool.and_eq_true _ _).mp hnd').2 h2

mutual
/-- dictdiffer.diff of a well-formed value against itself is empty. -/
theorem jdiff_self : ∀ (a : JValue), wfB a = true → ∀ node, jdiff a a node = []
  | .null, _, node => by simp [jdiff, pyEq]
  | .bool b, _, node => by simp [jdiff, pyEq]
  | .int n, _, node => by simp [jdiff, pyEq]
  | .str s, _, node => by simp [jdiff, pyEq]
  | .arr l, h, node => by
    have hl : wfListB l = true := by simpa [wfB] using h
    simp [jdiff, jdiffArr_self l hl 0 node]
  | .obj fo, h, node => by
    have h2 : (keyNodupB (fo.map Prod.fst) && wfEntriesB fo) = true := by
      simpa [wfB] using h
    have hnd := ((Bool.and_eq_true _ _).mp h2).1
    have hwe := ((Bool.and_eq_true _ _).mp h2).2
    have hint := jdiffInter_self fo hwe fo
      (fun k v hm => jlookup_of_mem_nodup fo k v hnd hm) node
    have hadd : fo.filter (fun e => (jlookup fo e.1).isNone) = [] := by
      apply List.filter_eq_nil_iff.mpr
      intro e he
      have hs := jlookup_isSome_of_mem fo e.1 e.2 (by simpa using he)
      cases hjl : jlookup fo e.1 with
      | some w => simp
      | none => rw [hjl] at hs; simp at hs
    simp [jdiff, hint, hadd]

theorem jdiffInter_self : ∀ (fo : List (String × JValue)), wfEntriesB fo = true →
    ∀ (so : List (String × JValue)), (∀ k v, (k, v) ∈ fo → jlookup so k = some v) →
    ∀ node, jdiffInter fo so node = []
  | [], _, _, _, _ => rfl
  | (k, v) :: rest, h, so, hlk, node => by
    have h2 : (wfB v && wfEntriesB rest) = true := by simpa [wfEntriesB] using h
    have hk := hlk k v (List.mem_cons_self _ _)
    have h1 := jdiff_self v ((Bool.and_eq_true _ _).mp h2).1 (node ++ [PKey.k k])
    have ih := jdiffInter_self rest ((Bool.and_eq_true _ _).mp h2).2 so
      (fun k' v' hm => hlk k' v' (List.mem_cons_of_mem _ hm)) node
    simp [jdiffInter, hk, h1, ih]

theorem jdiffArr_self : ∀ (l : List JValue), wfListB l = true →
    ∀ idx node, jdiffArr l l idx node = []
  | [], _, _, _ => rfl
  | v :: rest, h, idx, node => by
    have h2 : (wfB v && wfListB rest) = true := by simpa [wfListB] using h
    simp [jdiffArr, jdiff_self v ((Bool.and_eq_true _ _).mp h2).1 (node ++ [PKey.i idx]),
      jdiffArr_self rest ((Bool.and_eq_true _ _).mp h2).2 (idx + 1) node]
end

/-- C4: diffing a well-formed record against itself yields the empty diff,
and whenever the diff of an (old, new) pair is empty both Change
Formatters return exactly (false, "", "") without touching the records. -/
theorem c4_diff_reflexive_empty_format :
    (∀ a : JValue, wfB a = true → jdiff a a [] = []) ∧
    (∀ oldv newv : JValue, jdiff oldv newv [] = [] →
      format_movie_change oldv newv = Except.ok (false, "", "") ∧
      format_show_change oldv newv = Except.ok (false, "", "")) := by
  constructor
  · intro a h
    exact jdiff_self a h []
  · intro oldv newv h
    constructor
    · simp [format_movie_change, h]
    · simp [format_show_change, h]

/-- C4 witness: reflexivity at a concrete one-key record, and the empty
formatter results at a concrete identical pair. -/
theorem c4_diff_reflexive_empty_format_witness :
    jdiff (JValue.obj [("id", JValue.int 1)]) (JValue.obj [("id", JValue.int 1)]) [] = [] ∧
    format_movie_change (JValue.str "x") (JValue.str "x") = Except.ok (false, "", "") ∧
    format_show_change (JValue.str "x") (JValue.str "x") = Except.ok (false, "", "") :=
  ⟨c4_diff_reflexive_empty_format.1 (JValue.obj [("id", JValue.int 1)]) (by decide),
   (c4_diff_reflexive_empty_format.2 (JValue.str "x") (JValue.str "x") rfl).1,
   (c4_diff_reflexive_empty_format.2 (JValue.str "x") (JValue.str "x") rfl).2⟩

/-- Filtering against the empty dict keeps everything: every key is
missing from the empty side. -/
theorem filter_isNone_empty :
    ∀ (e : List (String × JValue)), e.filter (fun x => (jlookup [] x.1).isNone) = e
  | [] => rfl
  | x :: xs => by simp [jlookup, filter_isNone_empty xs]

/-- Diffing the empty dict against a non-empty dict yields exactly one
Added op carrying every key of the new dict. -/
theorem jdiff_from_empty (e : List (String × JValue)) (hne : e ≠ []) :
    jdiff (JValue.obj []) (JValue.obj e) [] =
      [DiffOp.add [] (e.map (fun kv => (PKey.k kv.1, kv.2)))] := by
  cases e with
  | nil => exact absurd rfl hne
  | cons x xs =>
    simp [jdiff, jdiffInter, jlookup, filter_isNone_empty]

/-- A release entry with the three rendered keys produces its body line. -/
theorem relLine_ok (r : JValue) (h : isRelEntryRecordB r = true) :
    ∃ s, relLine r = Except.ok s := by
  cases r with
  | obj e =>
    simp only [isRelEntryRecordB, Bool.and_eq_true] at h
    obtain ⟨⟨ht, hl⟩, hd⟩ := h
    obtain ⟨vt, hvt⟩ := Option.isSome_iff_exists.mp ht
    obtain ⟨vl, hvl⟩ := Option.isSome_iff_exists.mp hl
    obtain ⟨vd, hvd⟩ := Option.isSome_iff_exists.mp hd
    exact ⟨"Release(" ++ pyStr vt ++ ", " ++ pyStr vl ++ "): " ++ pyStr vd ++ "\n",
      by simp [relLine, getKeyE, hvt, hvl, hvd, bind, Except.bind]⟩
  | null => simp [isRelEntryRecordB] at h
  | bool b => simp [isRelEntryRecordB] at h
  | int n => simp [isRelEntryRecordB] at h
  | str s => simp [isRelEntryRecordB] at h
  | arr l => simp [isRelEntryRecordB] at h

/-- The movie formatter succeeds with has_change true on any movie-record
shaped new value once the diff is non-empty. -/
theorem format_movie_ok (oldv : JValue) (e : List (String × JValue))
    (hrec : isMovieRecordB (JValue.obj e) = true)
    (hdiff : (jdiff oldv (JValue.obj e) []).isEmpty = false) :
    ∃ s b, format_movie_change oldv (JValue.obj e) = Except.ok (true, s, b) := by
  simp only [isMovieRecordB, Bool.and_eq_true] at hrec
  obtain ⟨⟨⟨⟨hid, htitle⟩, hot⟩, hst⟩, hrd⟩ := hrec
  obtain ⟨vid, hvid⟩ := Option.isSome_iff_exists.mp hid
  obtain ⟨vt, hvt⟩ := Option.isSome_iff_exists.mp htitle
  obtain ⟨vot, hvot⟩ := Option.isSome_iff_exists.mp hot
  obtain ⟨vst, hvst⟩ := Option.isSome_iff_exists.mp hst
  cases hvrd : jlookup e "release_dates" with
  | none => rw [hvrd] at hrd; simp at hrd
  | some rd =>
    rw [hvrd] at hrd
    cases rd with
    | arr rs =>
      have hall : ∀ r ∈ rs, isRelEntryRecordB r = true := by
        simpa [List.all_eq_true] using hrd
      obtain ⟨lines, hlines⟩ := mapM_ok relLine rs (fun r hr => relLine_ok r (hall r hr))
      have hlines2 : List.mapM.loop relLine rs [] = Except.ok lines := hlines
      simp [format_movie_change, hdiff, getKeyE, hvt, hvid, hvot, hvst, hvrd, hlines, hlines2,
        bind, Except.bind]
    | null => simp at hrd
    | bool b => simp at hrd
    | int n => simp at hrd
    | str s => simp at hrd
    | obj e2 => simp at hrd

/-- The show formatter succeeds with has_change true on any show-record
shaped new value once the diff is non-empty. -/
theorem format_show_ok (oldv : JValue) (e : List (String × JValue))
    (hrec : isShowRecordB (JValue.obj e) = true)
    (hdiff : (jdiff oldv (JValue.obj e) []).isEmpty = false) :
    ∃ s b, format_show_change oldv (JValue.obj e) = Except.ok (true, s, b) := by
  simp only [isShowRecordB, Bool.and_eq_true] at hrec
  obtain ⟨⟨⟨⟨hid, htitle⟩, hot⟩, hst⟩, hne⟩ := hrec
  obtain ⟨vid, hvid⟩ := Option.isSome_iff_exists.mp hid
  obtain ⟨vt, hvt⟩ := Option.isSome_iff_exists.mp htitle
  obtain ⟨vot, hvot⟩ := Option.isSome_iff_exists.mp hot
  obtain ⟨vst, hvst⟩ := Option.isSome_iff_exists.mp hst
  cases hvne : jlookup e "next_episode_to_air" with
  | none => rw [hvne] at hne; simp [nextEpisodeWfB] at hne
  | some nv =>
    rw [hvne] at hne
    have hsec : ∃ sec, nextEpisodeSection nv = Except.ok sec := by
      cases nv with
      | null => exact ⟨"", rfl⟩
      | obj ne =>
        simp only [nextEpisodeWfB] at hne
        cases hep : jlookup ne "episode_number" with
        | none =>
          exact ⟨"Next to air: " ++ pyStr ((jlookup ne "season_number").getD (JValue.int 0))
              ++ "x" ++ pad2 0 ++ " - " ++ pyStr ((jlookup ne "name").getD (JValue.str ""))
              ++ " (" ++ pyStr ((jlookup ne "id").getD (JValue.int 0)) ++ ")  --  "
              ++ pyStr ((jlookup ne "air_date").getD (JValue.str "")) ++ "\n",
            by simp [nextEpisodeSection, hep]⟩
        | some ev =>
          rw [hep] at hne
          cases ev with
          | int x =>
            exact ⟨"Next to air: " ++ pyStr ((jlookup ne "season_number").getD (JValue.int 0))
                ++ "x" ++ pad2 x ++ " - " ++ pyStr ((jlookup ne "name").getD (JValue.str ""))
                ++ " (" ++ pyStr ((jlookup ne "id").getD (JValue.int 0)) ++ ")  --  "
                ++ pyStr ((jlookup ne "air_date").getD (JValue.str "")) ++ "\n",
              by simp [nextEpisodeSection, hep]⟩
          | null => simp at hne
          | bool b => simp at hne
          | str s => simp at hne
          | arr l => simp at hne
          | obj e2 => simp at hne
      | bool b => simp [nextEpisodeWfB] at hne
      | int n => simp [nextEpisodeWfB] at hne
      | str s => simp [nextEpisodeWfB] at hne
      | arr l => simp [nextEpisodeWfB] at hne
    obtain ⟨sec, hsecEq⟩ := hsec
    simp [format_show_change, hdiff, getKeyE, hvt, hvid, hvot, hvst, hvne, hsecEq,
      bind, Except.bind]

/-- C3: diffing the empty-sentinel cache-miss record against a normalized
(movie or show) record always yields exactly one non-empty Added op
carrying every key of the new record, and the corresponding Change
Formatter reports has_change = true. -/
theorem c3_bootstrap_all_added :
    (∀ e : List (String × JValue), isMovieRecordB (JValue.obj e) = true →
      jdiff cache_miss (JValue.obj e) [] =
        [DiffOp.add [] (e.map (fun kv => (PKey.k kv.1, kv.2)))] ∧
      jdiff cache_miss (JValue.obj e) [] ≠ [] ∧
      (∀ op ∈ jdiff cache_miss (JValue.obj e) [], op.isAddB = true) ∧
      (∃ s b, format_movie_change cache_miss (JValue.obj e) = Except.ok (true, s, b))) ∧
    (∀ e : List (String × JValue), isShowRecordB (JValue.obj e) = true →
      jdiff cache_miss (JValue.obj e) [] =
        [DiffOp.add [] (e.map (fun kv => (PKey.k kv.1, kv.2)))] ∧
      (∃ s b, format_show_change cache_miss (JValue.obj e) = Except.ok (true, s, b))) := by
  constructor
  · intro e hrec
    have hne : e ≠ [] := by
      intro h0
      subst h0
      simp [isMovieRecordB, jlookup] at hrec
    have hd := jdiff_from_empty e hne
    refine ⟨hd, ?_, ?_, ?_⟩
    · rw [show cache_miss = JValue.obj [] from rfl, hd]
      simp
    · intro op hop
      rw [show cache_miss = JValue.obj [] from rfl, hd] at hop
      rw [List.mem_singleton.mp hop]
      rfl
    · exact format_movie_ok cache_miss e hrec
        (by rw [show cache_miss = JValue.obj [] from rfl, hd]; rfl)
  · intro e hrec
    have hne : e ≠ [] := by
      intro h0
      subst h0
      simp [isShowRecordB, jlookup] at hrec
    have hd := jdiff_from_empty e hne
    refine ⟨hd, ?_⟩
    exact format_show_ok cache_miss e hrec
      (by rw [show cache_miss = JValue.obj [] from rfl, hd]; rfl)

/-- C3 witness: the bootstrap diff and formatter results at one concrete
normalized movie record and one concrete normalized show record. -/
theorem c3_bootstrap_all_added_witness :
    (isMovieRecordB (JValue.obj fixMovieRecordEntries) = true ∧
     jdiff cache_miss (JValue.obj fixMovieRecordEntries) [] =
       [DiffOp.add [] (fixMovieRecordEntries.map (fun kv => (PKey.k kv.1, kv.2)))] ∧
     (∃ s b, format_movie_change cache_miss (JValue.obj fixMovieRecordEntries) =
       Except.ok (true, s, b))) ∧
    (isShowRecordB (JValue.obj fixShowRecordEntries) = true ∧
     (∃ s b, format_show_change cache_miss (JValue.obj fixShowRecordEntries) =
       Except.ok (true, s, b))) := by
  have h1 := c3_bootstrap_all_added.1 fixMovieRecordEntries (by decide)
  have h2 := c3_bootstrap_all_added.2 fixShowRecordEntries (by decide)
  exact ⟨⟨by decide, h1.1, h1.2.2.2⟩, ⟨by decide, h2.2⟩⟩
